import Mathlib

/-!
Verification of the CanonicalStaging landing-page auditor.

This file gives a shallow embedding of the core algorithms of the repository
(crawl frontier, audit dispatch, structural-manipulation detector and visual
regression detector) and proves or refutes the frozen behavioural claims
about them.  Definitions mirror the JavaScript source; JS peculiarities
(`undefined` propagation, truthiness, `parseFloat`) are modelled explicitly.
-/

/-! ## JS-style helpers -/

/-- Lookup in a JS-object modelled as an association list (first binding wins,
mirroring property access on objects built without duplicate keys). -/
def jsLookup {α : Type} (m : List (String × α)) (k : String) : Option α :=
  (m.find? (fun p => p.1 = k)).map (fun p => p.2)

/-- `a.isPre b` is true when the char list `a` is an initial segment of `b`. -/
def charsLead : List Char → List Char → Bool
  | [], _ => true
  | _ :: _, [] => false
  | a :: as, b :: bs => a = b && charsLead as bs

/-- Substring occurrence on char lists, used for JS `String.prototype.includes`. -/
def charsContain (sub : List Char) : List Char → Bool
  | [] => sub.isEmpty
  | b :: bs => charsLead sub (b :: bs) || charsContain sub bs

/-- JS `s.includes(sub)`. -/
def jsIncludes (s sub : String) : Bool :=
  charsContain sub.data s.data

/-- Digit run at the head of a char list. -/
def leadDigits (cs : List Char) : List Char × List Char :=
  (cs.takeWhile Char.isDigit, cs.dropWhile Char.isDigit)

/-- Numeric value of a digit string. -/
def digitsToNat (cs : List Char) : Nat :=
  cs.foldl (fun a c => a * 10 + (c.toNat - 48)) 0

/-- An exact decimal value `m / 10 ^ s`: the number `parseFloat` yields on the
decimal literals the auditor reads (`"20px"` is `⟨20, 0⟩`, `"1.5"` is
`⟨15, 1⟩`). Comparisons are exact integer cross-multiplications, so no
rounding is introduced by the model. -/
structure Dec where
  m : Int
  s : Nat
deriving DecidableEq, Repr

/-- Strict `a < b` on exact decimals: `a.m / 10^a.s < b.m / 10^b.s` cleared of
denominators. -/
def Dec.lt (a b : Dec) : Bool :=
  decide (a.m * 10 ^ b.s < b.m * 10 ^ a.s)

/-- JS `parseFloat` restricted to plain decimal literals (optionally signed,
optionally with a fractional part, trailing garbage such as `px` ignored);
`none` models `NaN`. -/
def jsParseFloat (str : String) : Option Dec :=
  let cs := str.data
  let signAndRest : Int × List Char :=
    match cs with
    | '-' :: rest => (-1, rest)
    | '+' :: rest => (1, rest)
    | _ => (1, cs)
  let intPart := leadDigits signAndRest.2
  let fracPart : List Char :=
    match intPart.2 with
    | '.' :: rest => (leadDigits rest).1
    | _ => []
  if intPart.1.isEmpty && fracPart.isEmpty then none
  else
    some ⟨signAndRest.1 *
        ((digitsToNat intPart.1 : Int) * 10 ^ fracPart.length + (digitsToNat fracPart : Int)),
      fracPart.length⟩

/-! ## Structural Manipulation Detector: heading diff
(`HTMLStructureAuditor.compareHeadings` / `assessHierarchyImpact`). -/

structure Heading where
  level : Nat
  text : String
  selector : String
deriving DecidableEq, Repr

inductive Impact where
  | critical
  | warning
  | improvement
  | neutral
deriving DecidableEq, Repr

/-- `HTMLStructureAuditor.assessHierarchyImpact`. -/
def assessHierarchyImpact (fromLevel toLevel : Nat) : Impact :=
  if fromLevel = 1 ∧ 1 < toLevel then .critical
  else if fromLevel < toLevel then .warning
  else if toLevel < fromLevel then .improvement
  else .neutral

structure HierarchyChange where
  index : Nat
  fromH : String
  toH : String
  text : String
  selector : String
  impact : Impact
deriving DecidableEq, Repr

structure ModifiedHeading where
  index : Nat
  level : Nat
  fromText : String
  toText : String
  selector : String
deriving DecidableEq, Repr

structure HeadingChanges where
  hasChanges : Bool
  added : List Heading
  removed : List Heading
  modified : List ModifiedHeading
  hierarchyChanges : List HierarchyChange
deriving DecidableEq, Repr

/-- The `H<n>` label the source builds with template strings. -/
def hLabel (level : Nat) : String :=
  "H" ++ toString level

/-- Loop body of `compareHeadings`: JS `baselineHeadings.forEach((b, index) ...)`,
where `currentHeadings[index]` is walked in step with the index (an index past
the end of `currentHeadings` reads `undefined`, the `[]` cases below). -/
def compareHeadingsAux : Nat → List Heading → List Heading → HeadingChanges → HeadingChanges
  | _, [], _, acc => acc
  | i, b :: bs, [], acc =>
      compareHeadingsAux (i + 1) bs []
        { acc with removed := acc.removed ++ [b], hasChanges := true }
  | i, b :: bs, c :: cs, acc =>
      let acc :=
        if b.level ≠ c.level then
          { acc with
            hierarchyChanges := acc.hierarchyChanges ++
              [⟨i, hLabel b.level, hLabel c.level, c.text, c.selector,
                assessHierarchyImpact b.level c.level⟩],
            hasChanges := true }
        else if b.text ≠ c.text then
          { acc with
            modified := acc.modified ++ [⟨i, c.level, b.text, c.text, c.selector⟩],
            hasChanges := true }
        else acc
      compareHeadingsAux (i + 1) bs cs acc

/-- `HTMLStructureAuditor.compareHeadings`: positional diff of the two heading
lists, then the trailing current headings are recorded as `added`. -/
def compareHeadings (baselineHeadings currentHeadings : List Heading) : HeadingChanges :=
  let ch := compareHeadingsAux 0 baselineHeadings currentHeadings ⟨false, [], [], [], []⟩
  if baselineHeadings.length < currentHeadings.length then
    { ch with
      added := ch.added ++ currentHeadings.drop baselineHeadings.length,
      hasChanges := true }
  else ch

/-! ## Claim-side description of the heading diff (C5)

`claimHierarchyChanges`/`claimModifiedEntries` follow the words of the spec:
positional, index-based classification (critical when a baseline H1 became a
non-H1, warning on demotion, improvement on promotion). -/

/-- Claim C5's impact classification: critical if the baseline level was 1 and
the current level is not 1, else warning if the current level is greater, else
improvement if it is less. -/
def claimImpact (fromLevel toLevel : Nat) : Impact :=
  if fromLevel = 1 ∧ toLevel ≠ 1 then .critical
  else if fromLevel < toLevel then .warning
  else if toLevel < fromLevel then .improvement
  else .neutral

/-- Hierarchy changes as the claim words them: one entry per index present in
both lists whose levels mismatch. -/
def claimHierarchyChanges : Nat → List Heading → List Heading → List HierarchyChange
  | _, [], _ => []
  | _, _ :: _, [] => []
  | i, b :: bs, c :: cs =>
    (if b.level ≠ c.level then
      [⟨i, hLabel b.level, hLabel c.level, c.text, c.selector, claimImpact b.level c.level⟩]
     else []) ++ claimHierarchyChanges (i + 1) bs cs

/-- Modified entries: equal levels at an index present in both lists but
differing text. -/
def claimModifiedEntries : Nat → List Heading → List Heading → List ModifiedHeading
  | _, [], _ => []
  | _, _ :: _, [] => []
  | i, b :: bs, c :: cs =>
    (if b.level = c.level ∧ b.text ≠ c.text then
      [⟨i, c.level, b.text, c.text, c.selector⟩]
     else []) ++ claimModifiedEntries (i + 1) bs cs

/-- Hierarchy changes as the source computes them (same shape, but with the
source's `assessHierarchyImpact`). -/
def srcHierarchyChanges : Nat → List Heading → List Heading → List HierarchyChange
  | _, [], _ => []
  | _, _ :: _, [] => []
  | i, b :: bs, c :: cs =>
    (if b.level ≠ c.level then
      [⟨i, hLabel b.level, hLabel c.level, c.text, c.selector,
        assessHierarchyImpact b.level c.level⟩]
     else []) ++ srcHierarchyChanges (i + 1) bs cs

/-! ## Structural Manipulation Detector: style diff
(`HTMLStructureAuditor.compareStyling` / `isSuspiciousStyling`). -/

structure StyleChange where
  fromV : String
  toV : Option String
deriving DecidableEq, Repr

structure SuspiciousChange where
  selector : String
  reason : String
  changes : List (String × StyleChange)
deriving DecidableEq, Repr

structure StylingComparison where
  hasCompensation : Bool
  styleChanges : List (String × List (String × StyleChange))
  suspiciousChanges : List SuspiciousChange
deriving DecidableEq, Repr

/-- A styling snapshot: selector → property → computed value. -/
abbrev Styling := List (String × List (String × String))

/-- `isSignificantFontSizeIncrease`: `parseFloat(to) > parseFloat(from) * 1.2`
(false when either parse is NaN, and when `to` is `undefined`);
`fromPx * 1.2` is the exact decimal `⟨12 * fromPx.m, fromPx.s + 1⟩`. -/
def isSignificantFontSizeIncrease (fromV : String) (toV : Option String) : Bool :=
  match toV with
  | none => false
  | some toS =>
    match jsParseFloat fromV, jsParseFloat toS with
    | some fromPx, some toPx => Dec.lt ⟨12 * fromPx.m, fromPx.s + 1⟩ toPx
    | _, _ => false

/-- `weights[v] || parseFloat(v) || 400` with `weights = {normal: 400, bold: 700}`
(`undefined` and NaN and 0 are falsy). -/
def fontWeightValue (v : Option String) : Dec :=
  match v with
  | none => ⟨400, 0⟩
  | some s =>
    if s = "normal" then ⟨400, 0⟩
    else if s = "bold" then ⟨700, 0⟩
    else
      match jsParseFloat s with
      | some q => if q.m = 0 then ⟨400, 0⟩ else q
      | none => ⟨400, 0⟩

/-- `isWeightIncrease`: `toWeight > fromWeight`. -/
def isWeightIncrease (fromV : String) (toV : Option String) : Bool :=
  Dec.lt (fontWeightValue (some fromV)) (fontWeightValue toV)

/-- The regex test `selector.match(/^h[2-6]/)`. -/
def startsWithH2to6 (s : String) : Bool :=
  match s.data with
  | 'h' :: c :: _ => c = '2' || c = '3' || c = '4' || c = '5' || c = '6'
  | _ => false

/-- The font-size clause of `isSuspiciousStyling`. -/
def fontSizeSuspicious (changes : List (String × StyleChange)) : Bool :=
  match jsLookup changes "fontSize" with
  | some sc => isSignificantFontSizeIncrease sc.fromV sc.toV
  | none => false

/-- The font-weight clause of `isSuspiciousStyling`. -/
def fontWeightSuspicious (changes : List (String × StyleChange)) : Bool :=
  match jsLookup changes "fontWeight" with
  | some sc => isWeightIncrease sc.fromV sc.toV
  | none => false

/-- `HTMLStructureAuditor.isSuspiciousStyling`. -/
def isSuspiciousStyling (selector : String) (styleChanges : List (String × StyleChange)) :
    Bool :=
  if startsWithH2to6 selector then
    fontSizeSuspicious styleChanges || fontWeightSuspicious styleChanges
  else false

/-- Inner property loop of `compareStyling`: for each baseline property whose
value differs (strict JS comparison, `undefined` for a property the current
snapshot lacks) record a from/to change. -/
def compareStylingSelector (baseProps curProps : List (String × String)) :
    List (String × StyleChange) :=
  baseProps.filterMap fun p =>
    let cur := jsLookup curProps p.1
    if some p.2 ≠ cur then some (p.1, ⟨p.2, cur⟩) else none

/-- One selector step of the `compareStyling` loop. -/
def compareStylingStep (currentStyling : Styling) (acc : StylingComparison)
    (entry : String × List (String × String)) : StylingComparison :=
  match jsLookup currentStyling entry.1 with
  | none => acc
  | some curProps =>
    let selectorChanges := compareStylingSelector entry.2 curProps
    if selectorChanges.isEmpty then acc
    else
      let acc1 := { acc with styleChanges := acc.styleChanges ++ [(entry.1, selectorChanges)] }
      if isSuspiciousStyling entry.1 selectorChanges then
        { acc1 with
          suspiciousChanges := acc1.suspiciousChanges ++
            [⟨entry.1, "heading_impersonation", selectorChanges⟩],
          hasCompensation := true }
      else acc1

/-- `HTMLStructureAuditor.compareStyling`. -/
def compareStyling (baselineStyling currentStyling : Styling) : StylingComparison :=
  baselineStyling.foldl (compareStylingStep currentStyling) ⟨false, [], []⟩

/-- The style-change entry one baseline selector contributes, if any. -/
def styleChangeOf (currentStyling : Styling) (entry : String × List (String × String)) :
    Option (String × List (String × StyleChange)) :=
  match jsLookup currentStyling entry.1 with
  | none => none
  | some curProps =>
    let selectorChanges := compareStylingSelector entry.2 curProps
    if selectorChanges.isEmpty then none else some (entry.1, selectorChanges)

/-- The suspicious-change entry one baseline selector contributes, if any. -/
def suspiciousOf (currentStyling : Styling) (entry : String × List (String × String)) :
    Option SuspiciousChange :=
  match jsLookup currentStyling entry.1 with
  | none => none
  | some curProps =>
    let selectorChanges := compareStylingSelector entry.2 curProps
    if selectorChanges.isEmpty then none
    else if isSuspiciousStyling entry.1 selectorChanges then
      some ⟨entry.1, "heading_impersonation", selectorChanges⟩
    else none

/-! ## Structural Manipulation Detector: meta-tag and element diffs,
correlation and score. -/

structure MetaTag where
  name : Option String
  content : Option String
deriving DecidableEq, Repr

/-- The map key `m.name || m.property || "unnamed"` (the stored tag objects
carry no `property` field, so a null or empty name falls through to
`"unnamed"`). -/
def metaKey (m : MetaTag) : String :=
  match m.name with
  | some s => if s = "" then "unnamed" else s
  | none => "unnamed"

/-- JS `Map.prototype.set`: overwrite in place, else append. -/
def mapSet {α : Type} (m : List (String × α)) (k : String) (v : α) : List (String × α) :=
  if (m.find? (fun p => p.1 = k)).isSome then
    m.map (fun p => if p.1 = k then (k, v) else p)
  else m ++ [(k, v)]

/-- `new Map(metas.map(m => [key m, m]))`. -/
def buildMetaMap (metas : List MetaTag) : List (String × MetaTag) :=
  metas.foldl (fun m t => mapSet m (metaKey t) t) []

structure MetaModified where
  name : String
  fromC : Option String
  toC : Option String
deriving DecidableEq, Repr

structure MetaTagChanges where
  hasChanges : Bool
  added : List MetaTag
  removed : List MetaTag
  modified : List MetaModified
deriving DecidableEq, Repr

/-- `HTMLStructureAuditor.compareMetaTags`. -/
def compareMetaTags (baselineMeta currentMeta : List MetaTag) : MetaTagChanges :=
  let baselineMap := buildMetaMap baselineMeta
  let currentMap := buildMetaMap currentMeta
  let acc := baselineMap.foldl (fun acc p =>
    match jsLookup currentMap p.1 with
    | none => { acc with removed := acc.removed ++ [p.2], hasChanges := true }
    | some currentTag =>
      if p.2.content ≠ currentTag.content then
        { acc with
          modified := acc.modified ++ [⟨p.1, p.2.content, currentTag.content⟩],
          hasChanges := true }
      else acc) (⟨false, [], [], []⟩ : MetaTagChanges)
  currentMap.foldl (fun acc p =>
    if (jsLookup baselineMap p.1).isNone then
      { acc with added := acc.added ++ [p.2], hasChanges := true }
    else acc) acc

structure ElementCountChange where
  changeType : String
  baseline : Nat
  current : Nat
deriving DecidableEq, Repr

structure ElementChanges where
  hasChanges : Bool
  selectorChanges : List (String × ElementCountChange)
deriving DecidableEq, Repr

/-- Important-element snapshots reduced to the per-selector cardinalities the
comparison uses. -/
abbrev ElementCounts := List (String × Nat)

/-- `HTMLStructureAuditor.compareImportantElements`. -/
def compareImportantElements (baselineElements currentElements : ElementCounts) :
    ElementChanges :=
  let acc := baselineElements.foldl (fun acc p =>
    match jsLookup currentElements p.1 with
    | none =>
      { acc with
        selectorChanges := acc.selectorChanges ++ [(p.1, ⟨"removed", p.2, 0⟩)],
        hasChanges := true }
    | some cur =>
      if p.2 ≠ cur then
        { acc with
          selectorChanges := acc.selectorChanges ++ [(p.1, ⟨"count_changed", p.2, cur⟩)],
          hasChanges := true }
      else acc) (⟨false, []⟩ : ElementChanges)
  currentElements.foldl (fun acc p =>
    if (jsLookup baselineElements p.1).isNone then
      { acc with
        selectorChanges := acc.selectorChanges ++ [(p.1, ⟨"added", 0, p.2⟩)],
        hasChanges := true }
    else acc) acc

structure PageStructure where
  title : String
  headings : List Heading
  metaTags : List MetaTag
  importantElements : ElementCounts
deriving DecidableEq, Repr

structure StructureComparison where
  hasChanges : Bool
  titleChanged : Bool
  headingChanges : HeadingChanges
  metaTagChanges : MetaTagChanges
  elementChanges : ElementChanges
deriving DecidableEq, Repr

/-- `HTMLStructureAuditor.compareStructures`. -/
def compareStructures (baseline current : PageStructure) : StructureComparison :=
  let titleChanged := decide (baseline.title ≠ current.title)
  let headingChanges := compareHeadings baseline.headings current.headings
  let metaTagChanges := compareMetaTags baseline.metaTags current.metaTags
  let elementChanges :=
    compareImportantElements baseline.importantElements current.importantElements
  { hasChanges := titleChanged || headingChanges.hasChanges || metaTagChanges.hasChanges
      || elementChanges.hasChanges,
    titleChanged := titleChanged,
    headingChanges := headingChanges,
    metaTagChanges := metaTagChanges,
    elementChanges := elementChanges }

structure ManipulationIssue where
  type : String
  severity : String
  structuralChange : HierarchyChange
  stylingChange : SuspiciousChange
deriving DecidableEq, Repr

structure StylingWarning where
  type : String
  severity : String
  change : SuspiciousChange
deriving DecidableEq, Repr

/-- `HTMLStructureAuditor.processStylingChanges`, returning the issue and
warning lists it pushes (`createError` emits severity `error`, `createWarning`
severity `warning`). -/
def processStylingChanges (stylingComparison : StylingComparison)
    (structureComparison : StructureComparison) :
    List ManipulationIssue × List StylingWarning :=
  if stylingComparison.hasCompensation then
    stylingComparison.suspiciousChanges.foldl (fun acc change =>
      match structureComparison.headingChanges.hierarchyChanges.find?
          (fun hc => jsIncludes hc.selector change.selector) with
      | some structuralChange =>
        (acc.1 ++ [⟨"seo_manipulation_detected", "error", structuralChange, change⟩], acc.2)
      | none => (acc.1, acc.2 ++ [⟨"suspicious_styling", "warning", change⟩])) ([], [])
  else ([], [])

/-- The hierarchy change `processStylingChanges` correlates a suspicious style
change with, if any: JS `hierarchyChanges.find(hc => hc.selector.includes(change.selector))`. -/
def correlatedChange (structureComparison : StructureComparison)
    (change : SuspiciousChange) : Option HierarchyChange :=
  structureComparison.headingChanges.hierarchyChanges.find?
    (fun hc => jsIncludes hc.selector change.selector)

/-- `HTMLStructureAuditor.calculateStructureScore` (`Math.round` is the
identity here since all deductions are integral). -/
def calculateStructureScore (structureComparison : StructureComparison)
    (stylingComparison : Option StylingComparison) : Int :=
  let score : Int := 100
  let score :=
    if structureComparison.hasChanges then
      let criticalHeadingChanges :=
        (structureComparison.headingChanges.hierarchyChanges.filter
          (fun c => c.impact = .critical)).length
      let warningHeadingChanges :=
        (structureComparison.headingChanges.hierarchyChanges.filter
          (fun c => c.impact = .warning)).length
      score - 30 * criticalHeadingChanges - 15 * warningHeadingChanges
        - 10 * structureComparison.headingChanges.removed.length
        - 20 * structureComparison.metaTagChanges.removed.length
        - 5 * structureComparison.metaTagChanges.modified.length
    else score
  let score :=
    match stylingComparison with
    | some st =>
      if st.hasCompensation then score - 25 * st.suspiciousChanges.length else score
    | none => score
  max 0 score

/-- The score formula exactly as claim C6 words it: 25 points are deducted
only per correlated manipulation, i.e. per suspicious style change that is
matched to a structural change. -/
def claimStructureScore (structureComparison : StructureComparison)
    (stylingComparison : Option StylingComparison) : Int :=
  let correlated : Nat :=
    match stylingComparison with
    | some st =>
      (st.suspiciousChanges.filter
        (fun ch => (correlatedChange structureComparison ch).isSome)).length
    | none => 0
  max 0 (100
    - 30 * ((structureComparison.headingChanges.hierarchyChanges.filter
        (fun c => c.impact = .critical)).length : Int)
    - 15 * ((structureComparison.headingChanges.hierarchyChanges.filter
        (fun c => c.impact = .warning)).length : Int)
    - 10 * (structureComparison.headingChanges.removed.length : Int)
    - 20 * (structureComparison.metaTagChanges.removed.length : Int)
    - 5 * (structureComparison.metaTagChanges.modified.length : Int)
    - 25 * (correlated : Int))

/-- The removed-tag entry a baseline map binding contributes, if any. -/
def metaRemovedOf (currentMap : List (String × MetaTag)) (p : String × MetaTag) :
    Option MetaTag :=
  match jsLookup currentMap p.1 with
  | none => some p.2
  | some _ => none

/-- The modified-tag entry a baseline map binding contributes, if any. -/
def metaModifiedOf (currentMap : List (String × MetaTag)) (p : String × MetaTag) :
    Option MetaModified :=
  match jsLookup currentMap p.1 with
  | none => none
  | some currentTag =>
    if p.2.content ≠ currentTag.content then some ⟨p.1, p.2.content, currentTag.content⟩
    else none

/-- The added-tag entry a current map binding contributes, if any. -/
def metaAddedOf (baselineMap : List (String × MetaTag)) (p : String × MetaTag) :
    Option MetaTag :=
  if (jsLookup baselineMap p.1).isNone then some p.2 else none

/-! ## AuditResult score (`AuditResult.calculateAuditScore`). -/

structure Issue where
  type : String
  severity : String
deriving DecidableEq, Repr

structure AuditResultRec where
  url : String
  success : Bool
  statusCode : Nat
  error : Option String
  issues : List Issue
  warnings : List Issue
deriving DecidableEq, Repr

/-- `AuditResult.calculateAuditScore`: 0 unless successful, else 100 minus 15
per error-severity issue minus 5 per warning, clamped to `[0, 100]`. -/
def calculateAuditScore (r : AuditResultRec) : Int :=
  if !r.success then 0
  else
    let criticalIssues := (r.issues.filter (fun i => i.severity = "error")).length
    let warnings := r.warnings.length
    max 0 (min 100 (100 - (criticalIssues : Int) * 15 - (warnings : Int) * 5))

/-! ## Visual Regression Detector
(`VisualRegressionAuditor.compareScreenshots` / `processComparison`). -/

structure Pixel where
  r : Nat
  g : Nat
  b : Nat
  a : Nat
deriving DecidableEq, Repr

structure Image where
  width : Nat
  height : Nat
  data : List Pixel
deriving DecidableEq, Repr

/-- Modelled from the spec: the `pixelmatch` library (an external dependency,
not part of this repository) performs an anti-aliasing-tolerant per-pixel
comparison against a color-distance threshold and returns the number of
differing pixels; `dist` abstracts its color metric on a 0–1 scale. -/
def pixelmatch (dist : Pixel → Pixel → ℚ) (threshold : ℚ) (a b : List Pixel) : Nat :=
  ((a.zip b).filter (fun p => decide (dist p.1 p.2 > threshold))).length

structure VisualComparison where
  hasChanges : Bool
  reason : String
  diffPixels : Option Nat
  diffPercentage : Option ℚ
  diffPath : Option String
  errorMsg : Option String
deriving DecidableEq, Repr

/-- The diff percentage the matched-dimensions branch computes:
`diffPixels / (width * height) * 100`. -/
def diffPercentageOf (dist : Pixel → Pixel → ℚ) (baselineImg currentImg : Image) : ℚ :=
  ((pixelmatch dist (1 / 10) baselineImg.data currentImg.data : ℚ) /
    ((baselineImg.width * baselineImg.height : Nat) : ℚ)) * 100

/-- `VisualRegressionAuditor.compareScreenshots`. Decoding failure of either
PNG (the `catch` branch of the source) is modelled by `none`; the returned
object of that branch carries neither `diffPixels` nor `diffPercentage`.
The pixel-level threshold is the source's hard-coded `0.1`; `cfgThreshold` is
`this.config.threshold` (default 0.1). -/
def compareScreenshots (cfgThreshold : ℚ) (dist : Pixel → Pixel → ℚ)
    (baseline current : Option Image) (diffPath : String) : VisualComparison :=
  match baseline, current with
  | some baselineImg, some currentImg =>
    if currentImg.width ≠ baselineImg.width ∨ currentImg.height ≠ baselineImg.height then
      { hasChanges := true, reason := "dimension_change",
        diffPixels := some (baselineImg.width * baselineImg.height),
        diffPercentage := some 100, diffPath := none, errorMsg := none }
    else
      let diffPixels := pixelmatch dist (1 / 10) baselineImg.data currentImg.data
      let diffPercentage := diffPercentageOf dist baselineImg currentImg
      let hasChanges := decide (diffPercentage > cfgThreshold)
      { hasChanges := hasChanges,
        reason := if hasChanges then "visual_difference" else "no_change",
        diffPixels := some diffPixels, diffPercentage := some diffPercentage,
        diffPath := if hasChanges then some diffPath else none, errorMsg := none }
  | _, _ =>
    { hasChanges := true, reason := "comparison_error", diffPixels := none,
      diffPercentage := none, diffPath := none, errorMsg := some "decode or diff failed" }

/-- JS `x > c` where `x` may be `undefined`: `undefined > c` is `false`. -/
def jsGtQ (x : Option ℚ) (c : ℚ) : Bool :=
  match x with
  | some q => decide (q > c)
  | none => false

structure VisualFinding where
  type : String
  severity : String
deriving DecidableEq, Repr

structure VisualRecommendation where
  type : String
deriving DecidableEq, Repr

/-- `VisualRegressionAuditor.processComparison`, returning the pushed
(issues, warnings, recommendations). -/
def processComparison (comparison : VisualComparison) :
    List VisualFinding × List VisualFinding × List VisualRecommendation :=
  if !comparison.hasChanges then ([], [], [])
  else if comparison.reason = "dimension_change" then
    ([⟨"layout_dimension_change", "error"⟩], [], [])
  else if jsGtQ comparison.diffPercentage 50 then
    ([⟨"major_visual_change", "error"⟩], [], [])
  else if jsGtQ comparison.diffPercentage 20 then
    ([], [⟨"moderate_visual_change", "warning"⟩], [])
  else
    ([], [], [⟨"minor_visual_change"⟩])

/-! ## Audit Dispatch Engine: rate-limit state machine
(`AuditEngine.handleRateLimit` / `auditSingleUrl`). -/

structure RLConfig where
  rateLimitDelay : Nat
  maxRetryDelay : Nat
deriving DecidableEq, Repr

/-- The backoff `handleRateLimit` sleeps before retry `retryCount + 1`:
`min(rateLimitDelay * 2 ^ retryCount, maxRetryDelay)` plus random jitter
(`Math.random() * 10000`, supplied per retry by `jitters`). -/
def rateLimitRetryDelay (cfg : RLConfig) (retryCount : Nat) (jitter : Nat) : Nat :=
  min (cfg.rateLimitDelay * 2 ^ retryCount) cfg.maxRetryDelay + jitter

/-- The terminal failed AuditResult `handleRateLimit` builds once the per-URL
retry count has reached 3. -/
def rateLimitTerminalResult (url : String) : AuditResultRec :=
  { url := url, success := false, statusCode := 429,
    error := some "Rate limit exceeded - maximum retries reached",
    issues := [], warnings := [] }

structure RLTrace where
  navigations : Nat
  delays : List Nat
  result : AuditResultRec
deriving DecidableEq, Repr

/-- `auditSingleUrl` mutually recursive with `handleRateLimit`, specialised to
a URL whose every navigation attempt yields HTTP 429: each pass navigates
once, observes the 429 and enters `handleRateLimit`, which returns the
terminal failed result when the retry count has reached 3 (performing no
further navigation) and otherwise records the backoff delay, bumps the
per-URL count and re-runs `auditSingleUrl`. `fuel` only bounds the recursion
of the embedding. -/
def audit429 (cfg : RLConfig) (url : String) (jitters : Nat → Nat) :
    Nat → Nat → RLTrace
  | 0, _ => ⟨0, [], rateLimitTerminalResult url⟩
  | fuel + 1, retryCount =>
    if 3 ≤ retryCount then
      ⟨1, [], rateLimitTerminalResult url⟩
    else
      let d := rateLimitRetryDelay cfg retryCount (jitters retryCount)
      let t := audit429 cfg url jitters fuel (retryCount + 1)
      ⟨t.navigations + 1, d :: t.delays, t.result⟩

/-! ## Audit Dispatch Engine: auditor registration and dispatch
(`AuditEngine.initializeAuditors` / `shouldRunAuditor`). -/

structure EngineOptions where
  includePerformance : Bool
  includeAccessibility : Bool
  includeVisualRegression : Bool
  includeStructureComparison : Bool
deriving DecidableEq, Repr

/-- `AuditEngine.initializeAuditors`: the auditor names registered in
`this.auditors`, in registration order — the six core auditors, plus
`performance` and `accessibility` when enabled. No other auditor is ever
registered, whatever the configuration. -/
def initializeAuditors (cfg : EngineOptions) : List String :=
  ["canonical", "metaTags", "headings", "redirects", "brokenLinks", "structuredData"]
    ++ (if cfg.includePerformance then ["performance"] else [])
    ++ (if cfg.includeAccessibility then ["accessibility"] else [])

/-- `AuditEngine.shouldRunAuditor`. -/
def shouldRunAuditor (auditorName : String) (options cfg : EngineOptions) : Bool :=
  let coreAuditors := ["canonical", "metaTags", "headings", "redirects", "brokenLinks",
    "structuredData"]
  if coreAuditors.contains auditorName then true
  else if auditorName = "performance"
      && (options.includePerformance || cfg.includePerformance) then true
  else if auditorName = "accessibility"
      && (options.includeAccessibility || cfg.includeAccessibility) then true
  else false

/-! ## Audit Dispatch Engine: per-auditor isolation and result compilation
(`AuditEngine.runAuditorWithTimeout` / `compileAuditResults`). -/

structure AuditorFindings where
  issues : List Issue
  warnings : List Issue
  recommendations : List String
deriving DecidableEq, Repr

/-- One settled auditor promise: `runAuditorWithTimeout` never rejects, so
`Promise.allSettled` only ever sees fulfilled entries of this shape. -/
inductive SettledAuditor where
  | ok (name : String) (result : AuditorFindings)
  | failed (name : String) (error : String)
deriving DecidableEq, Repr

/-- `AuditEngine.runAuditorWithTimeout`: the auditor's `audit` call is raced
against an independent timeout; a completed call yields a successful entry,
while a timeout or thrown error (`Except.error`) is caught and recorded as a
failed entry — the function itself always returns. -/
def runAuditorWithTimeout (auditorName : String)
    (outcome : Except String AuditorFindings) : SettledAuditor :=
  match outcome with
  | .ok result => .ok auditorName result
  | .error e => .failed auditorName e

structure CompiledResults where
  byName : List (String × AuditorFindings)
  issues : List Issue
  warnings : List Issue
  recommendations : List String
deriving DecidableEq, Repr

/-- `AuditEngine.compileAuditResults`: successful auditors are merged under
their name key with their issues, warnings and recommendations appended in
order; each failed auditor contributes a single synthetic `audit_failure`
issue of severity error. -/
def compileAuditResults (results : List SettledAuditor) : CompiledResults :=
  results.foldl (fun compiled r =>
    match r with
    | .ok name auditResult =>
      { compiled with
        byName := compiled.byName ++ [(name, auditResult)],
        issues := compiled.issues ++ auditResult.issues,
        warnings := compiled.warnings ++ auditResult.warnings,
        recommendations := compiled.recommendations ++ auditResult.recommendations }
    | .failed _ _ =>
      { compiled with issues := compiled.issues ++ [⟨"audit_failure", "error"⟩] })
    ⟨[], [], [], []⟩

/-- The per-entry contribution to each compiled field. -/
def settledByName : SettledAuditor → List (String × AuditorFindings)
  | .ok name result => [(name, result)]
  | .failed _ _ => []

def settledIssues : SettledAuditor → List Issue
  | .ok _ result => result.issues
  | .failed _ _ => [⟨"audit_failure", "error"⟩]

def settledWarnings : SettledAuditor → List Issue
  | .ok _ result => result.warnings
  | .failed _ _ => []

def settledRecommendations : SettledAuditor → List String
  | .ok _ result => result.recommendations
  | .failed _ _ => []

/-! ## Crawler Engine (`CrawlerEngine.discoverUrls` / `crawlPage`)

The browser, `UrlResolver` and `shouldIncludeUrl` (URL parsing and regex
matching) are collaborators of the control loop and enter the embedding as
function parameters: `web` maps a URL to its extracted links (`none` models a
navigation failure), `resolve` is `urlResolver.resolve(href, url)` and
`shouldInclude` is `shouldIncludeUrl` applied to the run's config/options. -/

structure CrawlConfig where
  maxDepth : Nat
  maxUrls : Nat
deriving DecidableEq, Repr

structure CrawlState where
  queue : List (String × Nat)
  discovered : List String
  visited : List String
  failed : List String
  cache : List (String × List String)
deriving DecidableEq, Repr

/-- JS `Set.prototype.add` on an insertion-ordered set. -/
def setAdd (s : List String) (x : String) : List String :=
  if s.contains x then s else s ++ [x]

/-- One iteration of the link loop at the end of `crawlPage`: resolve the
link, apply the inclusion policy, and if the URL is included and not yet
discovered add it to the discovered set and — only when `depth < maxDepth` —
enqueue it at depth+1. -/
def processLinkStep (cfg : CrawlConfig) (resolve : String → String → String)
    (shouldInclude : String → Bool) (url : String) (depth : Nat)
    (st : CrawlState) (link : String) : CrawlState :=
  let resolvedUrl := resolve link url
  if shouldInclude resolvedUrl then
    if st.discovered.contains resolvedUrl then st
    else
      let st := { st with discovered := st.discovered ++ [resolvedUrl] }
      if depth < cfg.maxDepth then
        { st with queue := st.queue ++ [(resolvedUrl, depth + 1)] }
      else st
  else st

/-- The `for (const link of links)` loop of `crawlPage`. -/
def processLinks (cfg : CrawlConfig) (resolve : String → String → String)
    (shouldInclude : String → Bool) (url : String) (depth : Nat)
    (links : List String) (st : CrawlState) : CrawlState :=
  links.foldl (processLinkStep cfg resolve shouldInclude url depth) st

/-- `CrawlerEngine.crawlPage`: mark the URL visited, obtain its links from
the cache or by navigating (`web`; a navigation failure is caught, the URL
joins the failed set and the page contributes nothing), then run the link
loop. Note the loop adds every included new link with no re-check of
`maxUrls`. -/
def crawlPage (cfg : CrawlConfig) (web : String → Option (List String))
    (resolve : String → String → String) (shouldInclude : String → Bool)
    (st : CrawlState) (url : String) (depth : Nat) : CrawlState :=
  let st := { st with visited := setAdd st.visited url }
  match jsLookup st.cache url with
  | some links => processLinks cfg resolve shouldInclude url depth links st
  | none =>
    match web url with
    | none => { st with failed := setAdd st.failed url }
    | some links =>
      let st := { st with cache := st.cache ++ [(url, links)] }
      processLinks cfg resolve shouldInclude url depth links st

/-- The `while (!queue.isEmpty() && discovered.size < maxUrls)` loop of
`discoverUrls`: dequeue, skip visited or too-deep tasks, else crawl the page.
`fuel` only bounds the recursion of the embedding. -/
def crawlLoop (cfg : CrawlConfig) (web : String → Option (List String))
    (resolve : String → String → String) (shouldInclude : String → Bool) :
    Nat → CrawlState → CrawlState
  | 0, st => st
  | fuel + 1, st =>
    match st.queue with
    | [] => st
    | (url, depth) :: rest =>
      if cfg.maxUrls ≤ st.discovered.length then st
      else
        let st1 := { st with queue := rest }
        if st1.visited.contains url || decide (cfg.maxDepth < depth) then
          crawlLoop cfg web resolve shouldInclude fuel st1
        else
          crawlLoop cfg web resolve shouldInclude fuel
            (crawlPage cfg web resolve shouldInclude st1 url depth)

/-- `CrawlerEngine.discoverUrls`: normalize the seed, seed the queue at depth
0 and the discovered set, run the loop, and return one CrawlResult per
discovered URL (only the URLs matter to the claims; depth and source are
derived per URL afterwards). -/
def discoverUrls (cfg : CrawlConfig) (web : String → Option (List String))
    (resolve : String → String → String) (shouldInclude : String → Bool)
    (normalize : String → String) (fuel : Nat) (startUrl : String) : List String :=
  let normalizedStartUrl := normalize startUrl
  let st : CrawlState :=
    { queue := [(normalizedStartUrl, 0)], discovered := [normalizedStartUrl],
      visited := [], failed := [], cache := [] }
  (crawlLoop cfg web resolve shouldInclude fuel st).discovered

/-- All cached link lists are bounded by `L` (invariant of a run: the cache
is only ever filled from `web`). -/
def cacheBounded (L : Nat) (st : CrawlState) : Prop :=
  ∀ p ∈ st.cache, p.2.length ≤ L

/-! ## Theorems -/

theorem assessHierarchyImpact_eq_claim (fromLevel toLevel : Nat) (h : 1 ≤ toLevel) :
    assessHierarchyImpact fromLevel toLevel = claimImpact fromLevel toLevel := by
  unfold assessHierarchyImpact claimImpact
  split_ifs <;> first | rfl | omega

theorem srcHierarchyChanges_nil_right (i : Nat) (bs : List Heading) :
    srcHierarchyChanges i bs [] = [] := by
  cases bs <;> rfl

theorem claimModifiedEntries_nil_right (i : Nat) (bs : List Heading) :
    claimModifiedEntries i bs [] = [] := by
  cases bs <;> rfl

/-- Closed form of the `forEach` loop of `compareHeadings`. -/
theorem compareHeadingsAux_eq (bs : List Heading) : ∀ (i : Nat) (cs : List Heading)
    (acc : HeadingChanges),
    compareHeadingsAux i bs cs acc =
      { hasChanges := acc.hasChanges || (!(srcHierarchyChanges i bs cs).isEmpty
          || !(claimModifiedEntries i bs cs).isEmpty || !(bs.drop cs.length).isEmpty),
        added := acc.added,
        removed := acc.removed ++ bs.drop cs.length,
        modified := acc.modified ++ claimModifiedEntries i bs cs,
        hierarchyChanges := acc.hierarchyChanges ++ srcHierarchyChanges i bs cs } := by
  induction bs with
  | nil =>
    intro i cs acc
    simp [compareHeadingsAux, srcHierarchyChanges, claimModifiedEntries]
  | cons b bs ih =>
    intro i cs acc
    cases cs with
    | nil =>
      rw [show compareHeadingsAux i (b :: bs) [] acc =
        compareHeadingsAux (i + 1) bs []
          { acc with removed := acc.removed ++ [b], hasChanges := true } from rfl, ih]
      simp [srcHierarchyChanges_nil_right, claimModifiedEntries_nil_right]
    | cons c cs =>
      by_cases hl : b.level ≠ c.level
      · rw [show compareHeadingsAux i (b :: bs) (c :: cs) acc =
          compareHeadingsAux (i + 1) bs cs
            { acc with
              hierarchyChanges := acc.hierarchyChanges ++
                [⟨i, hLabel b.level, hLabel c.level, c.text, c.selector,
                  assessHierarchyImpact b.level c.level⟩],
              hasChanges := true } from by simp [compareHeadingsAux, hl], ih]
        simp [srcHierarchyChanges, claimModifiedEntries, hl, List.append_assoc]
      · by_cases ht : b.text ≠ c.text
        · rw [show compareHeadingsAux i (b :: bs) (c :: cs) acc =
            compareHeadingsAux (i + 1) bs cs
              { acc with
                modified := acc.modified ++ [⟨i, c.level, b.text, c.text, c.selector⟩],
                hasChanges := true } from by simp [compareHeadingsAux, hl, ht], ih]
          simp [srcHierarchyChanges, claimModifiedEntries, hl, ht, not_not.mp hl,
            List.append_assoc]
        · rw [show compareHeadingsAux i (b :: bs) (c :: cs) acc =
            compareHeadingsAux (i + 1) bs cs acc from by simp [compareHeadingsAux, hl, ht], ih]
          simp [srcHierarchyChanges, claimModifiedEntries, hl, ht, not_not.mp hl]

theorem srcHierarchyChanges_eq_claim : ∀ (bs : List Heading) (i : Nat) (cs : List Heading),
    (∀ h ∈ cs, 1 ≤ h.level) →
    srcHierarchyChanges i bs cs = claimHierarchyChanges i bs cs := by
  intro bs
  induction bs with
  | nil => intro i cs _; cases cs <;> rfl
  | cons b bs ih =>
    intro i cs hc
    cases cs with
    | nil => rfl
    | cons c cs =>
      have h1 : 1 ≤ c.level := hc c (by simp)
      have h2 : ∀ h ∈ cs, 1 ≤ h.level := fun h hm => hc h (by simp [hm])
      simp only [srcHierarchyChanges, claimHierarchyChanges, ih (i + 1) cs h2,
        assessHierarchyImpact_eq_claim b.level c.level h1]

/-- Claim C5: the heading diff is positional — at each index present in both
lists a level mismatch yields exactly one hierarchy change with impact
critical (baseline H1 became non-H1) / warning (demotion) / improvement
(promotion); equal levels with differing text yield a modified entry; indices
beyond the baseline length are added; baseline indices missing from the
current list are removed; and baseline [H1, H2] versus current [H3, H2]
yields exactly one hierarchy change from H1 to H3 with critical impact. -/
theorem compareHeadings_positional (baseline current : List Heading)
    (hb : ∀ h ∈ baseline, 1 ≤ h.level) (hc : ∀ h ∈ current, 1 ≤ h.level) :
    (compareHeadings baseline current).hierarchyChanges =
      claimHierarchyChanges 0 baseline current ∧
    (compareHeadings baseline current).modified = claimModifiedEntries 0 baseline current ∧
    (compareHeadings baseline current).removed = baseline.drop current.length ∧
    (compareHeadings baseline current).added = current.drop baseline.length ∧
    compareHeadings [⟨1, "Welcome", "body > h1"⟩, ⟨2, "About", "body > h2"⟩]
        [⟨3, "Welcome", "body > h3"⟩, ⟨2, "About", "body > h2"⟩] =
      { hasChanges := true, added := [], removed := [], modified := [],
        hierarchyChanges := [⟨0, "H1", "H3", "Welcome", "body > h3", .critical⟩] } := by
  have hsrc := srcHierarchyChanges_eq_claim baseline 0 current hc
  unfold compareHeadings
  rw [compareHeadingsAux_eq]
  by_cases hlen : baseline.length < current.length
  · have hdropb : baseline.drop current.length = [] :=
      List.drop_eq_nil_of_le (le_of_lt hlen)
    simp [hlen, hsrc, hdropb]
    decide
  · have hdropc : current.drop baseline.length = [] :=
      List.drop_eq_nil_of_le (by omega)
    simp [hlen, hsrc, hdropc]
    decide

theorem compareHeadings_positional_witness :
    (∀ h ∈ [(⟨1, "Welcome", "body > h1"⟩ : Heading), ⟨2, "About", "body > h2"⟩],
      1 ≤ h.level) ∧
    (compareHeadings [⟨1, "Welcome", "body > h1"⟩, ⟨2, "About", "body > h2"⟩]
        [⟨3, "Welcome", "body > h3"⟩, ⟨2, "About", "body > h2"⟩]).hierarchyChanges =
      claimHierarchyChanges 0 [⟨1, "Welcome", "body > h1"⟩, ⟨2, "About", "body > h2"⟩]
        [⟨3, "Welcome", "body > h3"⟩, ⟨2, "About", "body > h2"⟩] :=
  ⟨by decide,
    (compareHeadings_positional
      [⟨1, "Welcome", "body > h1"⟩, ⟨2, "About", "body > h2"⟩]
      [⟨3, "Welcome", "body > h3"⟩, ⟨2, "About", "body > h2"⟩]
      (by decide) (by decide)).1⟩

theorem compareStyling_foldl (c : Styling) : ∀ (l : Styling) (acc : StylingComparison),
    l.foldl (compareStylingStep c) acc =
      { hasCompensation := acc.hasCompensation || !(l.filterMap (suspiciousOf c)).isEmpty,
        styleChanges := acc.styleChanges ++ l.filterMap (styleChangeOf c),
        suspiciousChanges := acc.suspiciousChanges ++ l.filterMap (suspiciousOf c) } := by
  intro l
  induction l with
  | nil => intro acc; simp
  | cons e l ih =>
    intro acc
    rw [List.foldl_cons]
    cases h : jsLookup c e.1 with
    | none =>
      rw [show compareStylingStep c acc e = acc from by simp [compareStylingStep, h], ih]
      simp [List.filterMap_cons, suspiciousOf, styleChangeOf, h]
    | some curProps =>
      by_cases hemp : compareStylingSelector e.2 curProps = []
      · rw [show compareStylingStep c acc e = acc from by
          simp [compareStylingStep, h, hemp], ih]
        simp [List.filterMap_cons, suspiciousOf, styleChangeOf, h, hemp]
      · by_cases hsus : isSuspiciousStyling e.1 (compareStylingSelector e.2 curProps)
        · rw [show compareStylingStep c acc e =
            { hasCompensation := true,
              styleChanges := acc.styleChanges ++ [(e.1, compareStylingSelector e.2 curProps)],
              suspiciousChanges := acc.suspiciousChanges ++
                [⟨e.1, "heading_impersonation", compareStylingSelector e.2 curProps⟩] } from by
              simp [compareStylingStep, h, List.isEmpty_iff, hemp, hsus], ih]
          simp [List.filterMap_cons, suspiciousOf, styleChangeOf, h, hemp, hsus,
            List.append_assoc]
        · rw [show compareStylingStep c acc e =
            { acc with
              styleChanges := acc.styleChanges ++
                [(e.1, compareStylingSelector e.2 curProps)] } from by
              simp [compareStylingStep, h, List.isEmpty_iff, hemp, hsus], ih]
          simp [List.filterMap_cons, suspiciousOf, styleChangeOf, h, hemp, hsus,
            List.append_assoc]

/-- Closed form of `compareStyling`. -/
theorem compareStyling_eq (b c : Styling) :
    compareStyling b c =
      { hasCompensation := !(b.filterMap (suspiciousOf c)).isEmpty,
        styleChanges := b.filterMap (styleChangeOf c),
        suspiciousChanges := b.filterMap (suspiciousOf c) } := by
  unfold compareStyling
  rw [compareStyling_foldl]
  simp

theorem processStylingChanges_foldl (structureComparison : StructureComparison) :
    ∀ (l : List SuspiciousChange) (acc : List ManipulationIssue × List StylingWarning),
    l.foldl (fun acc change =>
      match structureComparison.headingChanges.hierarchyChanges.find?
          (fun hc => jsIncludes hc.selector change.selector) with
      | some structuralChange =>
        (acc.1 ++ [⟨"seo_manipulation_detected", "error", structuralChange, change⟩], acc.2)
      | none => (acc.1, acc.2 ++ [⟨"suspicious_styling", "warning", change⟩])) acc =
      (acc.1 ++ l.filterMap (fun change =>
        (correlatedChange structureComparison change).map
          (fun structuralChange =>
            ⟨"seo_manipulation_detected", "error", structuralChange, change⟩)),
       acc.2 ++ l.filterMap (fun change =>
        if (correlatedChange structureComparison change).isSome then none
        else some ⟨"suspicious_styling", "warning", change⟩)) := by
  intro l
  induction l with
  | nil => intro acc; simp
  | cons change l ih =>
    intro acc
    rw [List.foldl_cons]
    cases h : correlatedChange structureComparison change with
    | none =>
      rw [show (match structureComparison.headingChanges.hierarchyChanges.find?
          (fun hc => jsIncludes hc.selector change.selector) with
        | some structuralChange =>
          (acc.1 ++ [(⟨"seo_manipulation_detected", "error", structuralChange, change⟩ :
            ManipulationIssue)], acc.2)
        | none => (acc.1, acc.2 ++ [⟨"suspicious_styling", "warning", change⟩])) =
          (acc.1, acc.2 ++ [⟨"suspicious_styling", "warning", change⟩]) from by
        rw [show structureComparison.headingChanges.hierarchyChanges.find?
          (fun hc => jsIncludes hc.selector change.selector) = none from h], ih]
      simp [List.filterMap_cons, h, List.append_assoc]
    | some structuralChange =>
      rw [show (match structureComparison.headingChanges.hierarchyChanges.find?
          (fun hc => jsIncludes hc.selector change.selector) with
        | some structuralChange =>
          (acc.1 ++ [(⟨"seo_manipulation_detected", "error", structuralChange, change⟩ :
            ManipulationIssue)], acc.2)
        | none => (acc.1, acc.2 ++ [⟨"suspicious_styling", "warning", change⟩])) =
          (acc.1 ++ [⟨"seo_manipulation_detected", "error", structuralChange, change⟩],
            acc.2) from by
        rw [show structureComparison.headingChanges.hierarchyChanges.find?
          (fun hc => jsIncludes hc.selector change.selector) = some structuralChange from h], ih]
      simp [List.filterMap_cons, h, List.append_assoc]

/-- Soundness of a recorded suspicious change: it passed `isSuspiciousStyling`. -/
theorem suspiciousOf_sound (c : Styling) (entry : String × List (String × String))
    (change : SuspiciousChange) (h : suspiciousOf c entry = some change) :
    startsWithH2to6 change.selector = true ∧
    (fontSizeSuspicious change.changes = true ∨ fontWeightSuspicious change.changes = true) := by
  unfold suspiciousOf at h
  cases hl : jsLookup c entry.1 with
  | none => rw [hl] at h; cases h
  | some curProps =>
    rw [hl] at h
    dsimp only at h
    by_cases hemp : (compareStylingSelector entry.2 curProps).isEmpty
    · rw [if_pos hemp] at h; cases h
    · rw [if_neg hemp] at h
      by_cases hsus : isSuspiciousStyling entry.1 (compareStylingSelector entry.2 curProps)
      · rw [if_pos hsus] at h
        cases h
        unfold isSuspiciousStyling at hsus
        by_cases hstart : startsWithH2to6 entry.1
        · rw [if_pos hstart] at hsus
          exact ⟨hstart, by simpa using hsus⟩
        · rw [if_neg hstart] at hsus; cases hsus
      · rw [if_neg hsus] at h; cases h

/-- Claim C4: with a baseline present and style analysis enabled, each
suspicious style change (an `h2`–`h6` selector whose font size grew by more
than 20 % or whose font weight increased) yields exactly one emission: an
error-severity `seo_manipulation_detected` issue referencing both the matching
hierarchy change and the style change when the heading diff contains a
hierarchy change whose selector matches, else a warning-severity
`suspicious_styling` warning. -/
theorem processStylingChanges_correlation (baselineStyling currentStyling : Styling)
    (structureComparison : StructureComparison) :
    (processStylingChanges (compareStyling baselineStyling currentStyling)
        structureComparison).1 =
      (compareStyling baselineStyling currentStyling).suspiciousChanges.filterMap
        (fun change => (correlatedChange structureComparison change).map
          (fun structuralChange =>
            ⟨"seo_manipulation_detected", "error", structuralChange, change⟩)) ∧
    (processStylingChanges (compareStyling baselineStyling currentStyling)
        structureComparison).2 =
      (compareStyling baselineStyling currentStyling).suspiciousChanges.filterMap
        (fun change =>
          if (correlatedChange structureComparison change).isSome then none
          else some ⟨"suspicious_styling", "warning", change⟩) ∧
    (∀ change ∈ (compareStyling baselineStyling currentStyling).suspiciousChanges,
      startsWithH2to6 change.selector = true ∧
      (fontSizeSuspicious change.changes = true ∨
        fontWeightSuspicious change.changes = true)) := by
  rw [compareStyling_eq]
  unfold processStylingChanges
  refine ⟨?_, ?_, ?_⟩
  · by_cases hemp : (baselineStyling.filterMap (suspiciousOf currentStyling)).isEmpty
    · have hnil : baselineStyling.filterMap (suspiciousOf currentStyling) = [] := by
        simpa [List.isEmpty_iff] using hemp
      simp [hnil]
    · simp only [hemp, Bool.not_false, if_true]
      rw [processStylingChanges_foldl]
      simp
  · by_cases hemp : (baselineStyling.filterMap (suspiciousOf currentStyling)).isEmpty
    · have hnil : baselineStyling.filterMap (suspiciousOf currentStyling) = [] := by
        simpa [List.isEmpty_iff] using hemp
      simp [hnil]
    · simp only [hemp, Bool.not_false, if_true]
      rw [processStylingChanges_foldl]
      simp
  · intro change hmem
    simp only [List.mem_filterMap] at hmem
    obtain ⟨entry, _, hsome⟩ := hmem
    exact suspiciousOf_sound currentStyling entry change hsome

theorem compareMetaTags_phase1 (currentMap : List (String × MetaTag)) :
    ∀ (l : List (String × MetaTag)) (acc : MetaTagChanges),
    l.foldl (fun acc p =>
      match jsLookup currentMap p.1 with
      | none => { acc with removed := acc.removed ++ [p.2], hasChanges := true }
      | some currentTag =>
        if p.2.content ≠ currentTag.content then
          { acc with
            modified := acc.modified ++ [⟨p.1, p.2.content, currentTag.content⟩],
            hasChanges := true }
        else acc) acc =
      { hasChanges := acc.hasChanges || (!(l.filterMap (metaRemovedOf currentMap)).isEmpty
          || !(l.filterMap (metaModifiedOf currentMap)).isEmpty),
        added := acc.added,
        removed := acc.removed ++ l.filterMap (metaRemovedOf currentMap),
        modified := acc.modified ++ l.filterMap (metaModifiedOf currentMap) } := by
  intro l
  induction l with
  | nil => intro acc; simp
  | cons p l ih =>
    intro acc
    rw [List.foldl_cons]
    cases h : jsLookup currentMap p.1 with
    | none =>
      dsimp only
      rw [ih]
      simp [List.filterMap_cons, metaRemovedOf, metaModifiedOf, h, List.append_assoc]
    | some currentTag =>
      dsimp only
      by_cases hmod : p.2.content ≠ currentTag.content
      · rw [if_pos hmod, ih]
        simp [List.filterMap_cons, metaRemovedOf, metaModifiedOf, h, hmod, List.append_assoc]
      · rw [if_neg hmod, ih]
        simp [List.filterMap_cons, metaRemovedOf, metaModifiedOf, h, hmod]

theorem compareMetaTags_phase2 (baselineMap : List (String × MetaTag)) :
    ∀ (l : List (String × MetaTag)) (acc : MetaTagChanges),
    l.foldl (fun acc p =>
      if (jsLookup baselineMap p.1).isNone then
        { acc with added := acc.added ++ [p.2], hasChanges := true }
      else acc) acc =
      { hasChanges := acc.hasChanges || !(l.filterMap (metaAddedOf baselineMap)).isEmpty,
        added := acc.added ++ l.filterMap (metaAddedOf baselineMap),
        removed := acc.removed,
        modified := acc.modified } := by
  intro l
  induction l with
  | nil => intro acc; simp
  | cons p l ih =>
    intro acc
    rw [List.foldl_cons]
    by_cases h : (jsLookup baselineMap p.1).isNone
    · rw [if_pos h, ih]
      simp [List.filterMap_cons, metaAddedOf, h, List.append_assoc]
    · rw [if_neg h, ih]
      simp [List.filterMap_cons, metaAddedOf, h]

/-- Closed form of `compareMetaTags`. -/
theorem compareMetaTags_eq (baselineMeta currentMeta : List MetaTag) :
    compareMetaTags baselineMeta currentMeta =
      { hasChanges := !((buildMetaMap baselineMeta).filterMap
            (metaRemovedOf (buildMetaMap currentMeta))).isEmpty
          || !((buildMetaMap baselineMeta).filterMap
            (metaModifiedOf (buildMetaMap currentMeta))).isEmpty
          || !((buildMetaMap currentMeta).filterMap
            (metaAddedOf (buildMetaMap baselineMeta))).isEmpty,
        added := (buildMetaMap currentMeta).filterMap
          (metaAddedOf (buildMetaMap baselineMeta)),
        removed := (buildMetaMap baselineMeta).filterMap
          (metaRemovedOf (buildMetaMap currentMeta)),
        modified := (buildMetaMap baselineMeta).filterMap
          (metaModifiedOf (buildMetaMap currentMeta)) } := by
  unfold compareMetaTags
  simp only [compareMetaTags_phase1, compareMetaTags_phase2]
  simp [Bool.or_assoc]

theorem compareHeadings_no_changes (b c : List Heading)
    (h : (compareHeadings b c).hasChanges = false) :
    (compareHeadings b c).hierarchyChanges = [] ∧ (compareHeadings b c).removed = [] := by
  unfold compareHeadings at h ⊢
  rw [compareHeadingsAux_eq] at h ⊢
  by_cases hlen : b.length < c.length
  · simp [hlen] at h
  · simp only [hlen, if_false] at h ⊢
    simp at h
    obtain ⟨⟨h1, _⟩, h3⟩ := h
    simp [h1, List.drop_eq_nil_of_le h3]

theorem compareMetaTags_no_changes (b c : List MetaTag)
    (h : (compareMetaTags b c).hasChanges = false) :
    (compareMetaTags b c).removed = [] ∧ (compareMetaTags b c).modified = [] := by
  rw [compareMetaTags_eq] at h ⊢
  simp at h ⊢
  obtain ⟨⟨h1, h2⟩, _⟩ := h
  exact ⟨h1, h2⟩

theorem compareStyling_no_compensation (b c : Styling)
    (h : (compareStyling b c).hasCompensation = false) :
    (compareStyling b c).suspiciousChanges = [] := by
  rw [compareStyling_eq] at h ⊢
  simpa using h

/-- Claim C6 (corrected): the structure score is 100 minus 30 per critical
hierarchy change, 15 per warning hierarchy change, 10 per removed heading,
20 per removed meta tag, 5 per modified meta tag, and 25 per suspicious style
change — whether or not that style change is correlated with a structural
change — floored at 0. -/
theorem calculateStructureScore_amended (baselineS currentS : PageStructure)
    (baselineStyling currentStyling : Styling) :
    calculateStructureScore (compareStructures baselineS currentS)
        (some (compareStyling baselineStyling currentStyling)) =
      max 0 (100
        - 30 * (((compareStructures baselineS currentS).headingChanges.hierarchyChanges.filter
            (fun c => c.impact = .critical)).length : Int)
        - 15 * (((compareStructures baselineS currentS).headingChanges.hierarchyChanges.filter
            (fun c => c.impact = .warning)).length : Int)
        - 10 * ((compareStructures baselineS currentS).headingChanges.removed.length : Int)
        - 20 * ((compareStructures baselineS currentS).metaTagChanges.removed.length : Int)
        - 5 * ((compareStructures baselineS currentS).metaTagChanges.modified.length : Int)
        - 25 * ((compareStyling baselineStyling currentStyling).suspiciousChanges.length :
            Int)) := by
  unfold calculateStructureScore
  by_cases hs : (compareStructures baselineS currentS).hasChanges
  · by_cases hc : (compareStyling baselineStyling currentStyling).hasCompensation
    · simp [hs, hc]
    · have h0 := compareStyling_no_compensation baselineStyling currentStyling
        (Bool.eq_false_iff.mpr hc)
      simp [hs, hc, h0]
  · have hdecomp : (compareStructures baselineS currentS).headingChanges.hasChanges = false ∧
        (compareStructures baselineS currentS).metaTagChanges.hasChanges = false := by
      have h' := hs
      unfold compareStructures at h'
      simp at h'
      obtain ⟨⟨⟨_, hhd⟩, hmd⟩, _⟩ := h'
      exact ⟨hhd, hmd⟩
    have hh : (compareStructures baselineS currentS).headingChanges =
        compareHeadings baselineS.headings currentS.headings := rfl
    have hm : (compareStructures baselineS currentS).metaTagChanges =
        compareMetaTags baselineS.metaTags currentS.metaTags := rfl
    have hhd := compareHeadings_no_changes baselineS.headings currentS.headings
      (by rw [← hh]; exact hdecomp.1)
    have hmt := compareMetaTags_no_changes baselineS.metaTags currentS.metaTags
      (by rw [← hm]; exact hdecomp.2)
    by_cases hc : (compareStyling baselineStyling currentStyling).hasCompensation
    · rw [hh, hm]
      simp [hs, hc, hhd.1, hhd.2, hmt.1, hmt.2]
    · have h0 := compareStyling_no_compensation baselineStyling currentStyling
        (Bool.eq_false_iff.mpr hc)
      rw [hh, hm]
      simp [hs, hc, h0, hhd.1, hhd.2, hmt.1, hmt.2]

/-- Claim C6 counterexample: an uncorrelated suspicious style change (font
size of `h2` grown from 10px to 20px with no structural change at all) still
costs 25 points: the source score is 75 while the claim's formula (25 only
per correlated manipulation) gives 100. -/
theorem calculateStructureScore_counterexample :
    calculateStructureScore
        (compareStructures ⟨"T", [⟨1, "A", "body > h1"⟩], [], []⟩
          ⟨"T", [⟨1, "A", "body > h1"⟩], [], []⟩)
        (some (compareStyling [("h2", [("fontSize", "10px")])]
          [("h2", [("fontSize", "20px")])])) = 75 ∧
    claimStructureScore
        (compareStructures ⟨"T", [⟨1, "A", "body > h1"⟩], [], []⟩
          ⟨"T", [⟨1, "A", "body > h1"⟩], [], []⟩)
        (some (compareStyling [("h2", [("fontSize", "10px")])]
          [("h2", [("fontSize", "20px")])])) = 100 ∧
    (75 : Int) ≠ 100 := by
  refine ⟨?_, ?_, by decide⟩ <;> decide

/-- Claim C10: the audit score lies in `[0, 100]`; it is 0 whenever success is
false, and otherwise equals 100 minus 15 per error-severity issue minus 5 per
warning, clamped to `[0, 100]`. -/
theorem calculateAuditScore_spec (r : AuditResultRec) :
    0 ≤ calculateAuditScore r ∧ calculateAuditScore r ≤ 100 ∧
    calculateAuditScore r =
      (if r.success then
        max 0 (min 100
          (100 - ((r.issues.filter (fun i => i.severity = "error")).length : Int) * 15
            - (r.warnings.length : Int) * 5))
      else 0) := by
  unfold calculateAuditScore
  by_cases hs : r.success = true
  · have hns : (!r.success) = false := by rw [hs]; rfl
    rw [hns]
    simp only [Bool.false_eq_true, if_false, if_pos hs]
    exact ⟨le_max_left 0 _, max_le (by norm_num) ((min_le_left _ _).trans (by norm_num)),
      trivial⟩
  · have hns : (!r.success) = true := by
      cases hb : r.success
      · rfl
      · exact absurd hb hs
    rw [hns]
    simp [hs]

theorem pixelmatch_self (dist : Pixel → Pixel → ℚ) (threshold : ℚ)
    (h : ∀ p, dist p p = 0) (hth : 0 ≤ threshold) (l : List Pixel) :
    pixelmatch dist threshold l l = 0 := by
  unfold pixelmatch
  induction l with
  | nil => rfl
  | cons p l ih =>
    simpa [List.zip_cons_cons, List.filter_cons, h p, decide_eq_false (not_lt.mpr hth)]
      using ih

/-- Claim C7: with both images decoded, differing dimensions force a
`dimension_change` comparison with `diffPercentage = 100` (an error-severity
issue, no pixel analysis); with matching dimensions the diff percentage is
`diffPixels / totalPixels * 100` (so identical pixels yield 0) and
`hasChanges` holds exactly when it exceeds the configured global threshold;
severities are error above 50, warning above 20, and otherwise only a
recommendation. -/
theorem compareScreenshots_spec (cfgThreshold : ℚ) (dist : Pixel → Pixel → ℚ)
    (baselineImg currentImg : Image) (diffPath : String)
    (hdist : ∀ p, dist p p = 0) (hthr : 0 ≤ cfgThreshold) :
    ((currentImg.width ≠ baselineImg.width ∨ currentImg.height ≠ baselineImg.height) →
      compareScreenshots cfgThreshold dist (some baselineImg) (some currentImg) diffPath =
        { hasChanges := true, reason := "dimension_change",
          diffPixels := some (baselineImg.width * baselineImg.height),
          diffPercentage := some 100, diffPath := none, errorMsg := none } ∧
      processComparison (compareScreenshots cfgThreshold dist (some baselineImg)
          (some currentImg) diffPath) = ([⟨"layout_dimension_change", "error"⟩], [], [])) ∧
    (currentImg.width = baselineImg.width → currentImg.height = baselineImg.height →
      (compareScreenshots cfgThreshold dist (some baselineImg) (some currentImg)
          diffPath).diffPercentage = some (diffPercentageOf dist baselineImg currentImg) ∧
      ((compareScreenshots cfgThreshold dist (some baselineImg) (some currentImg)
          diffPath).hasChanges = true ↔
        cfgThreshold < diffPercentageOf dist baselineImg currentImg)) ∧
    ((compareScreenshots cfgThreshold dist (some baselineImg) (some baselineImg)
        diffPath).diffPercentage = some 0 ∧
      (compareScreenshots cfgThreshold dist (some baselineImg) (some baselineImg)
        diffPath).hasChanges = false) ∧
    (currentImg.width = baselineImg.width → currentImg.height = baselineImg.height →
      cfgThreshold < diffPercentageOf dist baselineImg currentImg →
      ((50 < diffPercentageOf dist baselineImg currentImg →
        processComparison (compareScreenshots cfgThreshold dist (some baselineImg)
          (some currentImg) diffPath) = ([⟨"major_visual_change", "error"⟩], [], [])) ∧
      (20 < diffPercentageOf dist baselineImg currentImg →
        diffPercentageOf dist baselineImg currentImg ≤ 50 →
        processComparison (compareScreenshots cfgThreshold dist (some baselineImg)
          (some currentImg) diffPath) = ([], [⟨"moderate_visual_change", "warning"⟩], [])) ∧
      (diffPercentageOf dist baselineImg currentImg ≤ 20 →
        processComparison (compareScreenshots cfgThreshold dist (some baselineImg)
          (some currentImg) diffPath) = ([], [], [⟨"minor_visual_change"⟩])))) := by
  refine ⟨?_, ?_, ?_, ?_⟩
  · intro hne
    have hcmp : compareScreenshots cfgThreshold dist (some baselineImg) (some currentImg)
        diffPath =
        { hasChanges := true, reason := "dimension_change",
          diffPixels := some (baselineImg.width * baselineImg.height),
          diffPercentage := some 100, diffPath := none, errorMsg := none } := by
      unfold compareScreenshots
      dsimp only
      rw [if_pos hne]
    refine ⟨hcmp, ?_⟩
    rw [hcmp]
    rfl
  · intro hw hh
    have hcmp : compareScreenshots cfgThreshold dist (some baselineImg) (some currentImg)
        diffPath =
        { hasChanges := decide (diffPercentageOf dist baselineImg currentImg > cfgThreshold),
          reason := if decide (diffPercentageOf dist baselineImg currentImg > cfgThreshold)
            then "visual_difference" else "no_change",
          diffPixels := some (pixelmatch dist (1 / 10) baselineImg.data currentImg.data),
          diffPercentage := some (diffPercentageOf dist baselineImg currentImg),
          diffPath := if decide (diffPercentageOf dist baselineImg currentImg > cfgThreshold)
            then some diffPath else none,
          errorMsg := none } := by
      unfold compareScreenshots
      dsimp only
      rw [if_neg (by simp [hw, hh])]
    rw [hcmp]
    exact ⟨rfl, by simp⟩
  · have hcmp : compareScreenshots cfgThreshold dist (some baselineImg) (some baselineImg)
        diffPath =
        { hasChanges := decide (diffPercentageOf dist baselineImg baselineImg > cfgThreshold),
          reason := if decide (diffPercentageOf dist baselineImg baselineImg > cfgThreshold)
            then "visual_difference" else "no_change",
          diffPixels := some (pixelmatch dist (1 / 10) baselineImg.data baselineImg.data),
          diffPercentage := some (diffPercentageOf dist baselineImg baselineImg),
          diffPath := if decide (diffPercentageOf dist baselineImg baselineImg > cfgThreshold)
            then some diffPath else none,
          errorMsg := none } := by
      unfold compareScreenshots
      dsimp only
      rw [if_neg (by simp)]
    have hzero : diffPercentageOf dist baselineImg baselineImg = 0 := by
      unfold diffPercentageOf
      rw [pixelmatch_self dist (1 / 10) hdist (by norm_num) baselineImg.data]
      simp
    rw [hcmp, hzero]
    refine ⟨rfl, ?_⟩
    simp [decide_eq_false (not_lt.mpr hthr)]
  · intro hw hh hch
    have hcmp : compareScreenshots cfgThreshold dist (some baselineImg) (some currentImg)
        diffPath =
        { hasChanges := true,
          reason := "visual_difference",
          diffPixels := some (pixelmatch dist (1 / 10) baselineImg.data currentImg.data),
          diffPercentage := some (diffPercentageOf dist baselineImg currentImg),
          diffPath := some diffPath,
          errorMsg := none } := by
      unfold compareScreenshots
      dsimp only
      rw [if_neg (by simp [hw, hh])]
      simp [decide_eq_true_eq, hch]
    rw [hcmp]
    refine ⟨?_, ?_, ?_⟩
    · intro h50
      unfold processComparison jsGtQ
      simp [decide_eq_true h50, (by decide : ¬ ("visual_difference" = "dimension_change"))]
    · intro h20 h50
      unfold processComparison jsGtQ
      simp [decide_eq_false (not_lt.mpr h50), decide_eq_true h20,
        (by decide : ¬ ("visual_difference" = "dimension_change"))]
    · intro h20
      unfold processComparison jsGtQ
      simp [decide_eq_false (not_lt.mpr h20),
        decide_eq_false (not_lt.mpr (h20.trans (by norm_num : (20 : ℚ) ≤ 50))),
        (by decide : ¬ ("visual_difference" = "dimension_change"))]

theorem compareScreenshots_spec_witness :
    (∀ p : Pixel, (fun (_ _ : Pixel) => (0 : ℚ)) p p = 0) ∧ (0 : ℚ) ≤ 0 ∧
    (compareScreenshots 0 (fun _ _ => (0 : ℚ))
      (some ⟨1, 1, [⟨0, 0, 0, 255⟩]⟩) (some ⟨1, 1, [⟨0, 0, 0, 255⟩]⟩)
      "diff.png").hasChanges = false :=
  ⟨fun _ => rfl, le_refl 0,
    (compareScreenshots_spec 0 (fun _ _ => 0) ⟨1, 1, [⟨0, 0, 0, 255⟩]⟩
      ⟨1, 1, [⟨0, 0, 0, 255⟩]⟩ "diff.png" (fun _ => rfl) (le_refl 0)).2.2.1.2⟩

/-- Claim C8 counterexample: a comparison whose baseline image fails to decode
is not reported as a maximal-difference change: its `diffPercentage` is absent
(in particular not 100), and `processComparison` classifies it as a MINOR
change — a recommendation, with no issue or warning. -/
theorem compareScreenshots_error_counterexample :
    (compareScreenshots 0 (fun _ _ => (0 : ℚ)) none
      (some ⟨1, 1, [⟨0, 0, 0, 255⟩]⟩) "diff.png").diffPercentage = none ∧
    (compareScreenshots 0 (fun _ _ => (0 : ℚ)) none
      (some ⟨1, 1, [⟨0, 0, 0, 255⟩]⟩) "diff.png").hasChanges = true ∧
    processComparison (compareScreenshots 0 (fun _ _ => (0 : ℚ)) none
      (some ⟨1, 1, [⟨0, 0, 0, 255⟩]⟩) "diff.png") = ([], [], [⟨"minor_visual_change"⟩]) :=
  ⟨rfl, rfl, rfl⟩

/-- Claim C8 (corrected): a failed decode or pixel comparison propagates no
exception (the `catch` branch returns a value) and the comparison is still
reported with `hasChanges = true` and reason `comparison_error`; but it is not
treated as a forced maximal diff — it carries no `diffPercentage` at all, and
`processComparison` therefore files it as a minor change (a recommendation),
not a maximal-difference issue. -/
theorem compareScreenshots_error_amended (cfgThreshold : ℚ) (dist : Pixel → Pixel → ℚ)
    (baseline current : Option Image) (diffPath : String)
    (h : baseline = none ∨ current = none) :
    compareScreenshots cfgThreshold dist baseline current diffPath =
      { hasChanges := true, reason := "comparison_error", diffPixels := none,
        diffPercentage := none, diffPath := none,
        errorMsg := some "decode or diff failed" } ∧
    processComparison (compareScreenshots cfgThreshold dist baseline current diffPath) =
      ([], [], [⟨"minor_visual_change"⟩]) := by
  have hcmp : compareScreenshots cfgThreshold dist baseline current diffPath =
      { hasChanges := true, reason := "comparison_error", diffPixels := none,
        diffPercentage := none, diffPath := none,
        errorMsg := some "decode or diff failed" } := by
    rcases h with h | h
    · subst h; cases current <;> rfl
    · subst h; cases baseline <;> rfl
  exact ⟨hcmp, by rw [hcmp]; rfl⟩

theorem compareScreenshots_error_amended_witness :
    ((none : Option Image) = none ∨ (some (⟨2, 2, []⟩ : Image)) = none) ∧
    processComparison (compareScreenshots 0 (fun _ _ => (0 : ℚ)) none
      (some ⟨2, 2, []⟩) "d.png") = ([], [], [⟨"minor_visual_change"⟩]) :=
  ⟨Or.inl rfl,
    (compareScreenshots_error_amended 0 (fun _ _ => 0) none (some ⟨2, 2, []⟩) "d.png"
      (Or.inl rfl)).2⟩

/-- Claim C3: under persistent 429s the engine retries exactly 3 times
(4 navigations in all), delaying retry n by
`min(rateLimitDelay * 2^n, maxRetryDelay)` plus jitter; once the per-URL
retry count has reached 3 the state machine performs no further navigation
and returns the terminal failed AuditResult (success false, statusCode 429,
explicit rate-limit-exceeded error). -/
theorem audit429_spec (cfg : RLConfig) (url : String) (jitters : Nat → Nat)
    (fuel : Nat) (hfuel : 4 ≤ fuel) :
    audit429 cfg url jitters fuel 0 =
      { navigations := 4,
        delays := [rateLimitRetryDelay cfg 0 (jitters 0),
          rateLimitRetryDelay cfg 1 (jitters 1),
          rateLimitRetryDelay cfg 2 (jitters 2)],
        result := rateLimitTerminalResult url } ∧
    (rateLimitTerminalResult url).success = false ∧
    (rateLimitTerminalResult url).statusCode = 429 ∧
    (rateLimitTerminalResult url).error =
      some "Rate limit exceeded - maximum retries reached" ∧
    (∀ n, 3 ≤ n → ∀ g, audit429 cfg url jitters (g + 1) n =
      ⟨1, [], rateLimitTerminalResult url⟩) := by
  obtain ⟨k, rfl⟩ : ∃ k, fuel = k + 4 := ⟨fuel - 4, by omega⟩
  refine ⟨?_, rfl, rfl, rfl, ?_⟩
  · show audit429 cfg url jitters (k + 3 + 1) 0 = _
    rw [show audit429 cfg url jitters (k + 3 + 1) 0 =
      ⟨(audit429 cfg url jitters (k + 3) 1).navigations + 1,
        rateLimitRetryDelay cfg 0 (jitters 0) :: (audit429 cfg url jitters (k + 3) 1).delays,
        (audit429 cfg url jitters (k + 3) 1).result⟩ from by simp [audit429]]
    rw [show audit429 cfg url jitters (k + 2 + 1) 1 =
      ⟨(audit429 cfg url jitters (k + 2) 2).navigations + 1,
        rateLimitRetryDelay cfg 1 (jitters 1) :: (audit429 cfg url jitters (k + 2) 2).delays,
        (audit429 cfg url jitters (k + 2) 2).result⟩ from by simp [audit429]]
    rw [show audit429 cfg url jitters (k + 1 + 1) 2 =
      ⟨(audit429 cfg url jitters (k + 1) 3).navigations + 1,
        rateLimitRetryDelay cfg 2 (jitters 2) :: (audit429 cfg url jitters (k + 1) 3).delays,
        (audit429 cfg url jitters (k + 1) 3).result⟩ from by simp [audit429]]
    rw [show audit429 cfg url jitters (k + 1) 3 = ⟨1, [], rateLimitTerminalResult url⟩ from by
      cases k <;> simp [audit429]]
  · intro n hn g
    simp [audit429, hn]

theorem audit429_spec_witness :
    4 ≤ 4 ∧ audit429 ⟨30000, 120000⟩ "https://example.com" (fun _ => 1000) 4 0 =
      { navigations := 4, delays := [31000, 61000, 121000],
        result := rateLimitTerminalResult "https://example.com" } :=
  ⟨by decide, by
    rw [(audit429_spec ⟨30000, 120000⟩ "https://example.com" (fun _ => 1000) 4
      (by decide)).1]
    decide⟩

/-- Claim C2 fails on the code: whatever the configuration — in particular
with `includeStructureComparison` and `includeVisualRegression` enabled, as
`LandingPageAuditor` passes them — the dispatch engine never registers the
structural-manipulation or visual-regression detector and `shouldRunAuditor`
refuses both names, so no compiled AuditResult can carry `htmlStructure` or
`visualRegression` findings. -/
theorem detectors_never_dispatched (options cfg : EngineOptions) :
    "htmlStructure" ∉ initializeAuditors cfg ∧
    "visualRegression" ∉ initializeAuditors cfg ∧
    shouldRunAuditor "htmlStructure" options cfg = false ∧
    shouldRunAuditor "visualRegression" options cfg = false := by
  obtain ⟨p, a, v, s⟩ := cfg
  obtain ⟨po, ao, vo, so⟩ := options
  cases p <;> cases a <;> cases v <;> cases s <;> cases po <;> cases ao <;> cases vo <;>
    cases so <;> exact ⟨by decide, by decide, by decide, by decide⟩

theorem compileAuditResults_foldl (l : List SettledAuditor) :
    ∀ (acc : CompiledResults),
    l.foldl (fun compiled r =>
      match r with
      | .ok name auditResult =>
        { compiled with
          byName := compiled.byName ++ [(name, auditResult)],
          issues := compiled.issues ++ auditResult.issues,
          warnings := compiled.warnings ++ auditResult.warnings,
          recommendations := compiled.recommendations ++ auditResult.recommendations }
      | .failed _ _ =>
        { compiled with issues := compiled.issues ++ [⟨"audit_failure", "error"⟩] }) acc =
      { byName := acc.byName ++ l.flatMap settledByName,
        issues := acc.issues ++ l.flatMap settledIssues,
        warnings := acc.warnings ++ l.flatMap settledWarnings,
        recommendations := acc.recommendations ++ l.flatMap settledRecommendations } := by
  induction l with
  | nil => intro acc; simp
  | cons r l ih =>
    intro acc
    rw [List.foldl_cons]
    cases r with
    | ok name result =>
      rw [ih]
      simp [settledByName, settledIssues, settledWarnings, settledRecommendations,
        List.flatMap_cons, List.append_assoc]
    | failed name e =>
      rw [ih]
      simp [settledByName, settledIssues, settledWarnings, settledRecommendations,
        List.flatMap_cons, List.append_assoc]

/-- Closed form of `compileAuditResults`. -/
theorem compileAuditResults_eq (results : List SettledAuditor) :
    compileAuditResults results =
      { byName := results.flatMap settledByName,
        issues := results.flatMap settledIssues,
        warnings := results.flatMap settledWarnings,
        recommendations := results.flatMap settledRecommendations } := by
  unfold compileAuditResults
  rw [compileAuditResults_foldl]
  simp

/-- Claim C9: a plugin that times out or throws is recorded as a failed
auditor entry (the race itself never throws), contributes exactly one
synthetic `audit_failure` issue of severity error, and leaves the findings
merged from its sibling plugins — and the page-level compilation itself —
entirely unchanged. -/
theorem compileAuditResults_isolation (xs ys : List SettledAuditor)
    (auditorName errorMsg : String) :
    runAuditorWithTimeout auditorName (.error errorMsg) =
      .failed auditorName errorMsg ∧
    (compileAuditResults (xs ++ .failed auditorName errorMsg :: ys)).issues =
      (compileAuditResults xs).issues ++ [⟨"audit_failure", "error"⟩]
        ++ (compileAuditResults ys).issues ∧
    (compileAuditResults (xs ++ .failed auditorName errorMsg :: ys)).warnings =
      (compileAuditResults xs).warnings ++ (compileAuditResults ys).warnings ∧
    (compileAuditResults (xs ++ .failed auditorName errorMsg :: ys)).recommendations =
      (compileAuditResults xs).recommendations
        ++ (compileAuditResults ys).recommendations ∧
    (compileAuditResults (xs ++ .failed auditorName errorMsg :: ys)).byName =
      (compileAuditResults xs).byName ++ (compileAuditResults ys).byName := by
  refine ⟨rfl, ?_, ?_, ?_, ?_⟩ <;>
    simp [compileAuditResults_eq, List.flatMap_append, List.flatMap_cons,
      settledByName, settledIssues, settledWarnings, settledRecommendations]

/-- Claim C1 counterexample: with `maxUrls = 2`, a seed page carrying three
included links pushes the discovered set to size 4 in a single `crawlPage`
call — the run returns 4 URLs, strictly more than `maxUrls`. -/
theorem discoverUrls_exceeds_maxUrls :
    discoverUrls ⟨3, 2⟩
      (fun u => if u = "https://a.example" then
        some ["https://a.example/b", "https://a.example/c", "https://a.example/d"]
        else some [])
      (fun link _ => link) (fun _ => true) (fun u => u) 10 "https://a.example" =
      ["https://a.example", "https://a.example/b", "https://a.example/c",
        "https://a.example/d"] ∧
    ¬ ((discoverUrls ⟨3, 2⟩
      (fun u => if u = "https://a.example" then
        some ["https://a.example/b", "https://a.example/c", "https://a.example/d"]
        else some [])
      (fun link _ => link) (fun _ => true) (fun u => u) 10 "https://a.example").length ≤ 2) :=
  ⟨by decide, by decide⟩

theorem processLinkStep_discovered (cfg : CrawlConfig) (resolve : String → String → String)
    (shouldInclude : String → Bool) (url : String) (depth : Nat)
    (st : CrawlState) (link : String) :
    ∃ t : List String,
      (processLinkStep cfg resolve shouldInclude url depth st link).discovered =
        st.discovered ++ t ∧ t.length ≤ 1 ∧
      (processLinkStep cfg resolve shouldInclude url depth st link).cache = st.cache := by
  unfold processLinkStep
  by_cases hi : shouldInclude (resolve link url)
  · by_cases hd : resolve link url ∈ st.discovered
    · exact ⟨[], by simp [hi, hd], by simp, by simp [hi, hd]⟩
    · by_cases hdep : depth < cfg.maxDepth
      · exact ⟨[resolve link url], by simp [hi, hd, hdep], by simp, by simp [hi, hd, hdep]⟩
      · exact ⟨[resolve link url], by simp [hi, hd, hdep], by simp, by simp [hi, hd, hdep]⟩
  · exact ⟨[], by simp [hi], by simp, by simp [hi]⟩

theorem processLinks_discovered (cfg : CrawlConfig) (resolve : String → String → String)
    (shouldInclude : String → Bool) (url : String) (depth : Nat) :
    ∀ (links : List String) (st : CrawlState),
    ∃ t : List String,
      (processLinks cfg resolve shouldInclude url depth links st).discovered =
        st.discovered ++ t ∧ t.length ≤ links.length ∧
      (processLinks cfg resolve shouldInclude url depth links st).cache = st.cache := by
  intro links
  induction links with
  | nil => intro st; exact ⟨[], by simp [processLinks], by simp, by simp [processLinks]⟩
  | cons link links ih =>
    intro st
    have hstep : processLinks cfg resolve shouldInclude url depth (link :: links) st =
        processLinks cfg resolve shouldInclude url depth links
          (processLinkStep cfg resolve shouldInclude url depth st link) := by
      simp [processLinks, List.foldl_cons]
    obtain ⟨t0, ht0, ht0len, ht0c⟩ :=
      processLinkStep_discovered cfg resolve shouldInclude url depth st link
    obtain ⟨t1, ht1, ht1len, ht1c⟩ := ih
      (processLinkStep cfg resolve shouldInclude url depth st link)
    refine ⟨t0 ++ t1, ?_, ?_, ?_⟩
    · rw [hstep, ht1, ht0, List.append_assoc]
    · simp only [List.length_append, List.length_cons]
      omega
    · rw [hstep, ht1c, ht0c]

theorem crawlPage_discovered (cfg : CrawlConfig) (web : String → Option (List String))
    (resolve : String → String → String) (shouldInclude : String → Bool)
    (st : CrawlState) (url : String) (depth : Nat) (L : Nat)
    (hweb : ∀ u links, web u = some links → links.length ≤ L)
    (hcache : cacheBounded L st) :
    (∃ t : List String,
      (crawlPage cfg web resolve shouldInclude st url depth).discovered =
        st.discovered ++ t ∧ t.length ≤ L) ∧
    cacheBounded L (crawlPage cfg web resolve shouldInclude st url depth) := by
  cases hc : jsLookup st.cache url with
  | some links =>
    have hred : crawlPage cfg web resolve shouldInclude st url depth =
        processLinks cfg resolve shouldInclude url depth links
          { st with visited := setAdd st.visited url } := by
      unfold crawlPage
      dsimp only
      rw [hc]
    have hlen : links.length ≤ L := by
      unfold jsLookup at hc
      cases hf : st.cache.find? (fun p => p.1 = url) with
      | none => rw [hf] at hc; cases hc
      | some p =>
        rw [hf] at hc
        have hm := List.mem_of_find?_eq_some hf
        have hpeq : p.2 = links := by simpa using hc
        rw [← hpeq]
        exact hcache p hm
    obtain ⟨t, ht, htlen, htc⟩ := processLinks_discovered cfg resolve shouldInclude
      url depth links { st with visited := setAdd st.visited url }
    rw [hred]
    refine ⟨⟨t, by simpa using ht, le_trans htlen hlen⟩, ?_⟩
    intro p hp
    rw [htc] at hp
    exact hcache p hp
  | none =>
    cases hw : web url with
    | none =>
      have hred : crawlPage cfg web resolve shouldInclude st url depth =
          { st with visited := setAdd st.visited url, failed := setAdd st.failed url } := by
        unfold crawlPage
        dsimp only
        rw [hc, hw]
      rw [hred]
      exact ⟨⟨[], by simp, by simp⟩, fun p hp => hcache p hp⟩
    | some links =>
      have hred : crawlPage cfg web resolve shouldInclude st url depth =
          processLinks cfg resolve shouldInclude url depth links
            { st with visited := setAdd st.visited url, cache := st.cache ++ [(url, links)] }
          := by
        unfold crawlPage
        dsimp only
        rw [hc, hw]
      have hlen : links.length ≤ L := hweb url links hw
      obtain ⟨t, ht, htlen, htc⟩ := processLinks_discovered cfg resolve shouldInclude
        url depth links
        { st with visited := setAdd st.visited url, cache := st.cache ++ [(url, links)] }
      rw [hred]
      refine ⟨⟨t, by simpa using ht, le_trans htlen hlen⟩, ?_⟩
      intro p hp
      rw [htc] at hp
      simp at hp
      rcases hp with hp | hp
      · exact hcache p hp
      · rw [hp]
        exact hlen

theorem crawlLoop_spec (cfg : CrawlConfig) (web : String → Option (List String))
    (resolve : String → String → String) (shouldInclude : String → Bool) (L : Nat)
    (hweb : ∀ u links, web u = some links → links.length ≤ L) :
    ∀ (fuel : Nat) (st : CrawlState), cacheBounded L st →
      (∃ t : List String,
        (crawlLoop cfg web resolve shouldInclude fuel st).discovered =
          st.discovered ++ t) ∧
      (crawlLoop cfg web resolve shouldInclude fuel st).discovered.length ≤
        max st.discovered.length (cfg.maxUrls - 1 + L) := by
  intro fuel
  induction fuel with
  | zero =>
    intro st _
    exact ⟨⟨[], by simp [crawlLoop]⟩, by simp [crawlLoop]⟩
  | succ fuel ih =>
    intro st hc
    rcases hq : st.queue with _ | ⟨⟨url, depth⟩, rest⟩
    · have hred : crawlLoop cfg web resolve shouldInclude (fuel + 1) st = st := by
        unfold crawlLoop
        rw [hq]
      rw [hred]
      exact ⟨⟨[], by simp⟩, le_max_left _ _⟩
    · by_cases hcap : cfg.maxUrls ≤ st.discovered.length
      · have hred : crawlLoop cfg web resolve shouldInclude (fuel + 1) st = st := by
          unfold crawlLoop
          rw [hq]
          dsimp only
          rw [if_pos hcap]
        rw [hred]
        exact ⟨⟨[], by simp⟩, le_max_left _ _⟩
      · by_cases hskip : ({ st with queue := rest } : CrawlState).visited.contains url
            || decide (cfg.maxDepth < depth)
        · have hred : crawlLoop cfg web resolve shouldInclude (fuel + 1) st =
              crawlLoop cfg web resolve shouldInclude fuel { st with queue := rest } := by
            unfold crawlLoop
            rw [hq]
            dsimp only
            rw [if_neg hcap, if_pos hskip]
            rw [crawlLoop.eq_def]
          rw [hred]
          have hc1 : cacheBounded L ({ st with queue := rest } : CrawlState) := hc
          obtain ⟨⟨t, ht⟩, hlen⟩ := ih { st with queue := rest } hc1
          exact ⟨⟨t, ht⟩, hlen⟩
        · have hred : crawlLoop cfg web resolve shouldInclude (fuel + 1) st =
              crawlLoop cfg web resolve shouldInclude fuel
                (crawlPage cfg web resolve shouldInclude { st with queue := rest }
                  url depth) := by
            unfold crawlLoop
            rw [hq]
            dsimp only
            rw [if_neg hcap, if_neg hskip]
            rw [crawlLoop.eq_def]
          rw [hred]
          have hc1 : cacheBounded L ({ st with queue := rest } : CrawlState) := hc
          obtain ⟨⟨t0, ht0, ht0len⟩, hc2⟩ := crawlPage_discovered cfg web resolve
            shouldInclude { st with queue := rest } url depth L hweb hc1
          obtain ⟨⟨t1, ht1⟩, hlen1⟩ :=
            ih (crawlPage cfg web resolve shouldInclude { st with queue := rest } url depth)
              hc2
          refine ⟨⟨t0 ++ t1, ?_⟩, ?_⟩
          · rw [ht1, ht0]
            simp [List.append_assoc]
          · have h2 : (crawlPage cfg web resolve shouldInclude { st with queue := rest }
                url depth).discovered.length ≤ cfg.maxUrls - 1 + L := by
              rw [ht0]
              simp only [List.length_append]
              have : st.discovered.length < cfg.maxUrls := by omega
              omega
            calc (crawlLoop cfg web resolve shouldInclude fuel
                  (crawlPage cfg web resolve shouldInclude { st with queue := rest }
                    url depth)).discovered.length
                ≤ max (crawlPage cfg web resolve shouldInclude { st with queue := rest }
                    url depth).discovered.length (cfg.maxUrls - 1 + L) := hlen1
              _ = cfg.maxUrls - 1 + L := max_eq_right h2
              _ ≤ max st.discovered.length (cfg.maxUrls - 1 + L) := le_max_right _ _

/-- Claim C1 (corrected): during a run the discovered set only grows, and a
new page crawl starts only while `discovered.size < maxUrls`; but because a
page's links are added with no re-check of the cap, the run is only bounded
by `maxUrls - 1 + L` where `L` bounds the number of links of any page — the
returned list can exceed `maxUrls` (see the counterexample). -/
theorem discoverUrls_growth_and_bound (cfg : CrawlConfig)
    (web : String → Option (List String)) (resolve : String → String → String)
    (shouldInclude : String → Bool) (normalize : String → String) (L : Nat)
    (hweb : ∀ u links, web u = some links → links.length ≤ L)
    (hmax : 1 ≤ cfg.maxUrls) (hL : 1 ≤ L) :
    (∀ fuel st, cacheBounded L st →
      ∃ t : List String, (crawlLoop cfg web resolve shouldInclude fuel st).discovered =
        st.discovered ++ t) ∧
    (∀ fuel (st : CrawlState) url depth rest, st.queue = (url, depth) :: rest →
      cfg.maxUrls ≤ st.discovered.length →
      crawlLoop cfg web resolve shouldInclude (fuel + 1) st = st) ∧
    (∀ fuel startUrl,
      (discoverUrls cfg web resolve shouldInclude normalize fuel startUrl).length ≤
        cfg.maxUrls - 1 + L) := by
  refine ⟨fun fuel st hc =>
    (crawlLoop_spec cfg web resolve shouldInclude L hweb fuel st hc).1, ?_, ?_⟩
  · intro fuel st url depth rest hq hcap
    unfold crawlLoop
    rw [hq]
    dsimp only
    rw [if_pos hcap]
  · intro fuel startUrl
    unfold discoverUrls
    dsimp only
    have h := (crawlLoop_spec cfg web resolve shouldInclude L hweb fuel
      { queue := [(normalize startUrl, 0)], discovered := [normalize startUrl],
        visited := [], failed := [], cache := [] } (by intro p hp; cases hp)).2
    simp only [List.length_cons, List.length_nil] at h
    calc (crawlLoop cfg web resolve shouldInclude fuel
          { queue := [(normalize startUrl, 0)], discovered := [normalize startUrl],
            visited := [], failed := [], cache := [] }).discovered.length
        ≤ max 1 (cfg.maxUrls - 1 + L) := h
      _ = cfg.maxUrls - 1 + L := max_eq_right (by omega)

theorem discoverUrls_growth_and_bound_witness :
    (∀ (u : String) (links : List String),
      (fun (_ : String) => some ([] : List String)) u = some links → links.length ≤ 1) ∧
    1 ≤ 2 ∧ 1 ≤ 1 ∧
    (discoverUrls ⟨3, 2⟩ (fun _ => some []) (fun link _ => link) (fun _ => true)
      (fun u => u) 10 "https://b.example").length ≤ 2 - 1 + 1 :=
  ⟨fun _ links h => by cases h; decide, by decide, by decide,
    (discoverUrls_growth_and_bound ⟨3, 2⟩ (fun _ => some []) (fun link _ => link)
      (fun _ => true) (fun u => u) 1 (fun _ links h => by cases h; decide)
      (by decide) (by decide)).2.2 10 "https://b.example"⟩
